import Mathlib

/-!
# Verification of the Raytracer-Assignment-2022 core against its specification

This file gives a shallow embedding, over the real numbers, of the parts of
the `raytracer` crate that the specification's claims are about:

* the vector utilities (`Vec3`, dot product, reflection, refraction, ...) —
  the spec treats the vector library as a given external utility, and its
  source (`vec.rs`) is not part of the core sources, so these carry their
  standard mathematical meaning;
* the two generations of `Sphere::hit` present in the sources
  (`src/sphere.rs` and `src/hittable/sphere.rs`), `MovingSphere::hit`,
  `Sphere::get_sphere_uv` and `Sphere::pdf_value`;
* the material scattering routines `Lambertian::scatter` (early tree,
  `src/material.rs`) and `Dielectric::scatter` / `Dielectric::reflectance`
  (`src/material/mod.rs`), with their random draws made explicit parameters;
* the recursive estimator `ray_color` from `src/main.rs`, with the scene's
  hit test (whose `HittableList` source is not in the core) abstracted as a
  function parameter;
* a small IEEE-style floating-point model (`F`, with NaN and infinities but
  exact arithmetic on finite values) in which the degenerate-geometry
  behaviour of `Sphere::hit` is evaluated; the real-valued embedding is the
  rounding-free idealization, and every divergence between the two that a
  claim depends on is treated in the floating-point model.

Floating-point rounding itself is out of scope: every concrete input used
below evaluates exactly (perfect-square discriminants), so real arithmetic
and `f64` arithmetic agree on them.
-/

noncomputable section

/-! ## Vector utilities

`Vec3` models the 3-component `f64` vector of the crate's `vec` module
(`Point3` and `Color` are aliases of it in the source).  The `vec` module is
not among the core sources and the specification designates it as a given
utility library, so the operations below are its standard meanings. -/

/-- A 3-component real vector, modelling the crate's `Vec3`/`Point3`/`Color`. -/
structure Vec3 where
  x : ℝ
  y : ℝ
  z : ℝ
deriving DecidableEq

namespace Vec3

/-- Componentwise addition. -/
def add (a b : Vec3) : Vec3 := ⟨a.x + b.x, a.y + b.y, a.z + b.z⟩

/-- Componentwise subtraction. -/
def sub (a b : Vec3) : Vec3 := ⟨a.x - b.x, a.y - b.y, a.z - b.z⟩

/-- Componentwise negation. -/
def neg (a : Vec3) : Vec3 := ⟨-a.x, -a.y, -a.z⟩

/-- Componentwise (Hadamard) product, the `Color * Color` of the crate. -/
def cmul (a b : Vec3) : Vec3 := ⟨a.x * b.x, a.y * b.y, a.z * b.z⟩

/-- Scaling by a scalar on the right, the crate's `Vec3 * f64`. -/
def smul (a : Vec3) (k : ℝ) : Vec3 := ⟨a.x * k, a.y * k, a.z * k⟩

/-- Division by a scalar, the crate's `Vec3 / f64`. -/
def sdiv (a : Vec3) (k : ℝ) : Vec3 := ⟨a.x / k, a.y / k, a.z / k⟩

instance : Add Vec3 := ⟨add⟩
instance : Sub Vec3 := ⟨sub⟩
instance : Neg Vec3 := ⟨neg⟩
instance : Mul Vec3 := ⟨cmul⟩
instance : HMul Vec3 ℝ Vec3 := ⟨smul⟩
instance : HDiv Vec3 ℝ Vec3 := ⟨sdiv⟩

/-- Dot product, `Vec3::dot`. -/
def dot (a b : Vec3) : ℝ := a.x * b.x + a.y * b.y + a.z * b.z

/-- Squared length, `Vec3::length_sqr`. -/
def length_sqr (a : Vec3) : ℝ := dot a a

/-- Length, `Vec3::length`. -/
def length (a : Vec3) : ℝ := Real.sqrt a.length_sqr

/-- Normalization, `Vec3::to_unit`: divide by the length. -/
def to_unit (a : Vec3) : Vec3 := a / a.length

/-- Mirror reflection about a unit normal, the `vec` module's
`reflect(v, n) = v - n * 2 * dot(v, n)`. -/
def reflect (v n : Vec3) : Vec3 := v - n * (2 * dot v n)

/-- Snell refraction of the unit vector `uv` at unit normal `n` with the
index quotient `eta`, the `vec` module's `refract`:
`cos = min(dot(-uv, n), 1)`, perpendicular part `(uv + n*cos) * eta`,
parallel part `n * (-sqrt(|1 - |perp|^2|))`. -/
def refract (uv n : Vec3) (eta : ℝ) : Vec3 :=
  let cos_theta := min (dot (neg uv) n) 1
  let r_out_perp := (uv + n * cos_theta) * eta
  let r_out_parallel := n * (-Real.sqrt |1 - r_out_perp.length_sqr|)
  r_out_perp + r_out_parallel

/-- The `vec` module's `near_zero`: every component smaller than `1e-8`
in absolute value. -/
def near_zero (a : Vec3) : Prop :=
  |a.x| < 1 / 10 ^ 8 ∧ |a.y| < 1 / 10 ^ 8 ∧ |a.z| < 1 / 10 ^ 8

instance (a : Vec3) : Decidable a.near_zero := by
  unfold near_zero; infer_instance

@[simp] theorem add_def (a b : Vec3) :
    a + b = ⟨a.x + b.x, a.y + b.y, a.z + b.z⟩ := rfl

@[simp] theorem sub_def (a b : Vec3) :
    a - b = ⟨a.x - b.x, a.y - b.y, a.z - b.z⟩ := rfl

@[simp] theorem neg_def (a : Vec3) : -a = ⟨-a.x, -a.y, -a.z⟩ := rfl

@[simp] theorem cmul_def (a b : Vec3) :
    a * b = ⟨a.x * b.x, a.y * b.y, a.z * b.z⟩ := rfl

@[simp] theorem smul_def (a : Vec3) (k : ℝ) :
    a * k = ⟨a.x * k, a.y * k, a.z * k⟩ := rfl

@[simp] theorem sdiv_def (a : Vec3) (k : ℝ) :
    a / k = ⟨a.x / k, a.y / k, a.z / k⟩ := rfl

theorem dot_def (a b : Vec3) :
    dot a b = a.x * b.x + a.y * b.y + a.z * b.z := rfl

theorem length_sqr_def (a : Vec3) :
    length_sqr a = a.x * a.x + a.y * a.y + a.z * a.z := rfl

end Vec3

/-- Two-argument arctangent with the IEEE/libm orientation:
`atan2 y x` is the argument of the complex number `x + y i`, in `(-π, π]`.
Models the `f64::atan2` used by `get_sphere_uv` (modulo the sign of zero,
which the real numbers do not carry). -/
def atan2 (y x : ℝ) : ℝ := Complex.arg ⟨x, y⟩

/-! ## Rays and hit records -/

/-- The later tree's `Ray { orig, dir, tm }` (`basic/ray.rs`). -/
structure Ray where
  orig : Vec3
  dir : Vec3
  tm : ℝ

/-- `Ray::at(t) = orig + dir * t`. -/
def Ray.at (r : Ray) (t : ℝ) : Vec3 := r.orig + r.dir * t

/-- The later tree's hit record (`hittable` module, fields as used by
`hittable/sphere.rs`): point, stored normal, parameter, surface
coordinates and the front-face flag.  The material reference carried by
the Rust record is irrelevant to the numeric claims and omitted. -/
structure HitRecord where
  p : Vec3
  normal : Vec3
  t : ℝ
  u : ℝ
  v : ℝ
  front_face : Bool

/-- Modelled from the spec: `HitRecord::set_face_normal` (its `hittable`
module is not among the core sources).  Per the spec's data model,
`front_face` is true iff `dot(ray.direction, outward_normal) < 0`, and the
stored normal is the outward normal flipped to face the incoming ray. -/
def HitRecord.set_face_normal (rec : HitRecord) (r : Ray) (outward_normal : Vec3) :
    HitRecord :=
  if Vec3.dot r.dir outward_normal < 0 then
    { rec with front_face := true, normal := outward_normal }
  else
    { rec with front_face := false, normal := Vec3.neg outward_normal }

/-! ## The later tree's sphere (`src/hittable/sphere.rs`) -/

/-- The geometric data of `Sphere<M>` (`hittable/sphere.rs`); the material
parameter plays no part in the numeric claims. -/
structure Sphere where
  center : Vec3
  radius : ℝ

namespace Sphere

/-- `Sphere::get_sphere_uv`: `theta = acos(-p.y)`,
`phi = atan2(-p.z, p.x) + π`, returning `(phi/(2π), theta/π)`. -/
def get_sphere_uv (p : Vec3) : ℝ × ℝ :=
  let theta := Real.arccos (-p.y)
  let phi := atan2 (-p.z) p.x + Real.pi
  (phi / (2 * Real.pi), theta / Real.pi)

/-- The record construction shared by the accepting branches of
`Sphere::hit` (`hittable/sphere.rs` lines 59-63): outward normal
`(r.at(root) - center) / radius`, surface coordinates from
`get_sphere_uv`, then `set_face_normal`. -/
def mk_rec (s : Sphere) (r : Ray) (root : ℝ) : HitRecord :=
  let outward_normal := (r.at root - s.center) / s.radius
  let uv := get_sphere_uv outward_normal
  HitRecord.set_face_normal
    ⟨r.at root, outward_normal, root, uv.1, uv.2, false⟩ r outward_normal

/-- `Sphere::hit` of `hittable/sphere.rs`: quadratic via the half-b
optimization, preferring the smaller root and retrying the larger one
(here the retried root genuinely replaces the first, `root` being a
`mut` variable in this version of the source). -/
def hit (s : Sphere) (r : Ray) (t_min t_max : ℝ) : Option HitRecord :=
  let oc := r.orig - s.center
  let a := r.dir.length_sqr
  let half_b := Vec3.dot oc r.dir
  let c := oc.length_sqr - s.radius * s.radius
  let discriminant := half_b ^ 2 - a * c
  if discriminant < 0 then none
  else
    let sqrtd := Real.sqrt discriminant
    let root := (-half_b - sqrtd) / a
    if root < t_min ∨ t_max < root then
      let root := (-half_b + sqrtd) / a
      if root < t_min ∨ t_max < root then none
      else some (mk_rec s r root)
    else some (mk_rec s r root)

/-- `Sphere::hit` specialized to `t_max = f64::INFINITY`, as called by
`Sphere::pdf_value`: the comparison `t_max < root` is false for every
root when `t_max` is `+∞`, so the upper test disappears. -/
def hitI (s : Sphere) (r : Ray) (t_min : ℝ) : Option HitRecord :=
  let oc := r.orig - s.center
  let a := r.dir.length_sqr
  let half_b := Vec3.dot oc r.dir
  let c := oc.length_sqr - s.radius * s.radius
  let discriminant := half_b ^ 2 - a * c
  if discriminant < 0 then none
  else
    let sqrtd := Real.sqrt discriminant
    let root := (-half_b - sqrtd) / a
    if root < t_min then
      let root := (-half_b + sqrtd) / a
      if root < t_min then none
      else some (mk_rec s r root)
    else some (mk_rec s r root)

/-- `Sphere::pdf_value` (`hittable/sphere.rs` lines 75-83): if the ray
`(o, v)` hits the sphere over `(0.001, +∞)`, the reciprocal of the solid
angle of the subtended cone, else 0. -/
def pdf_value (s : Sphere) (o : Vec3) (v : Vec3) : ℝ :=
  match hitI s ⟨o, v, 0⟩ (1 / 1000) with
  | some _ =>
      let cos_max :=
        Real.sqrt (1 - s.radius * s.radius / (s.center - o).length_sqr)
      let solid_angle := 2 * Real.pi * (1 - cos_max)
      1 / solid_angle
  | none => 0

end Sphere

/-! ## `MovingSphere` (`src/hittable/sphere.rs` lines 93-178) -/

/-- The geometric data of `MovingSphere<M>`. -/
structure MovingSphere where
  center0 : Vec3
  center1 : Vec3
  time0 : ℝ
  time1 : ℝ
  radius : ℝ

namespace MovingSphere

/-- `MovingSphere::center(time)`: linear interpolation of the two centers. -/
def center (m : MovingSphere) (time : ℝ) : Vec3 :=
  m.center0 + (m.center1 - m.center0) * ((time - m.time0) / (m.time1 - m.time0))

/-- The record construction of `MovingSphere::hit`'s accepting branches. -/
def mk_rec (m : MovingSphere) (r : Ray) (root : ℝ) : HitRecord :=
  let outward_normal := (r.at root - m.center r.tm) / m.radius
  let uv := Sphere.get_sphere_uv outward_normal
  HitRecord.set_face_normal
    ⟨r.at root, outward_normal, root, uv.1, uv.2, false⟩ r outward_normal

/-- `MovingSphere::hit`: identical to `Sphere::hit` with the interpolated
center `center(r.tm)`. -/
def hit (m : MovingSphere) (r : Ray) (t_min t_max : ℝ) : Option HitRecord :=
  let oc := r.orig - m.center r.tm
  let a := r.dir.length_sqr
  let half_b := Vec3.dot oc r.dir
  let c := oc.length_sqr - m.radius * m.radius
  let discriminant := half_b ^ 2 - a * c
  if discriminant < 0 then none
  else
    let sqrtd := Real.sqrt discriminant
    let root := (-half_b - sqrtd) / a
    if root < t_min ∨ t_max < root then
      let root := (-half_b + sqrtd) / a
      if root < t_min ∨ t_max < root then none
      else some (mk_rec m r root)
    else some (mk_rec m r root)

end MovingSphere

/-! ## The early tree (`src/sphere.rs`, `src/material.rs`, `src/main.rs`)

The binary in `main.rs` is built against the crate-root modules `ray`,
`vec`, `sphere`, `material`, `hittable`; its `Ray` carries no time and its
`HitRecord` no surface coordinates. -/

namespace Early

/-- The early tree's `Ray { orig, dir }` (`ray.rs`, no time field). -/
structure Ray where
  orig : Vec3
  dir : Vec3

/-- `Ray::at(t) = orig + dir * t`. -/
def Ray.at (r : Ray) (t : ℝ) : Vec3 := r.orig + r.dir * t

/-- The early tree's hit record (point, stored normal, parameter,
front-face flag), material reference omitted. -/
structure HitRecord where
  p : Vec3
  normal : Vec3
  t : ℝ
  front_face : Bool

/-- Modelled from the spec: the early tree's `HitRecord::set_face_normal`
(its `hittable.rs` is not among the core sources); same front-face rule
as the later tree. -/
def HitRecord.set_face_normal (rec : HitRecord) (r : Ray) (outward_normal : Vec3) :
    HitRecord :=
  if Vec3.dot r.dir outward_normal < 0 then
    { rec with front_face := true, normal := outward_normal }
  else
    { rec with front_face := false, normal := Vec3.neg outward_normal }

/-- The early tree's `Sphere { center, radius }` (`sphere.rs`). -/
structure Sphere where
  center : Vec3
  radius : ℝ

namespace Sphere

/-- The record construction of `sphere.rs` lines 38-47: record built from
the given root, then `set_face_normal` with the recomputed outward
normal. -/
def mk_rec (s : Sphere) (r : Ray) (root : ℝ) : HitRecord :=
  let rec0 : HitRecord :=
    ⟨r.at root, (r.at root - s.center) / s.radius, root, false⟩
  let outward_normal := (rec0.p - s.center) / s.radius
  rec0.set_face_normal r outward_normal

/-- `Sphere::hit` of `sphere.rs` (early tree).  Note the inner
`let root` on line 32 of the source shadows the outer binding only inside
the `if` block: when the smaller root fails the range test the larger
root is range-checked, but the `HitRecord` on line 38 is still built from
the outer (smaller) root.  The translation preserves that shadowing. -/
def hit (s : Sphere) (r : Ray) (t_min t_max : ℝ) : Option HitRecord :=
  let oc := r.orig - s.center
  let a := r.dir.length_sqr
  let half_b := Vec3.dot oc r.dir
  let c := oc.length_sqr - s.radius * s.radius
  let discriminant := half_b ^ 2 - a * c
  if discriminant < 0 then none
  else
    let sqrtd := Real.sqrt discriminant
    let root := (-half_b - sqrtd) / a
    if root < t_min ∨ t_max < root then
      let root2 := (-half_b + sqrtd) / a
      if root2 < t_min ∨ t_max < root2 then none
      else some (mk_rec s r root)
    else some (mk_rec s r root)

end Sphere

/-- The early tree's `Lambertian { albedo }` (`material.rs`). -/
structure Lambertian where
  albedo : Vec3

/-- `Lambertian::scatter` (`material.rs` lines 23-29), with the draw of
`Vec3::random_unit_vector()` made an explicit argument `rand_unit`:
scatter direction `normal + rand_unit`, replaced by the normal itself
when near zero; always returns `Some (albedo, Ray(rec.p, direction))`. -/
def Lambertian.scatter (l : Lambertian) (rand_unit : Vec3) (_r_in : Ray)
    (rec : HitRecord) : Option (Vec3 × Ray) :=
  let scatter_direction := rec.normal + rand_unit
  let scatter_direction :=
    if scatter_direction.near_zero then rec.normal else scatter_direction
  some (l.albedo, ⟨rec.p, scatter_direction⟩)

/-- A material of the early tree as the estimator sees it: the
`scatter` capability of the `material.rs` trait (which has no `emitted`
method), with its internal random draws absorbed into the function. -/
structure Mat where
  scatter : Ray → HitRecord → Option (Vec3 × Ray)

/-- The default `Material::emitted` of `material/mod.rs` lines 24-26:
black, regardless of the arguments.  No material visible to the
`main.rs` estimator overrides it. -/
def defaultEmitted (_r_in : Ray) (_rec : HitRecord) : Vec3 := ⟨0, 0, 0⟩

/-- `f64::MAX`, the upper bound `ray_color` passes to `world.hit`. -/
def f64MAX : ℝ := (2 - 2 ^ (-(52 : ℤ))) * 2 ^ 1023

/-- `ray_color` (`main.rs` lines 121-146).  The scene's `HittableList::hit`
(whose `hittable.rs` is not among the core sources) is abstracted as the
parameter `worldHit`, returning the closest hit record paired with the hit
primitive's material (the record's `mat_ptr`).  Depth is a natural number:
the source checks `depth <= 0` on an `i32` that starts positive and only
decreases by 1. -/
def ray_color (worldHit : Ray → ℝ → ℝ → Option (HitRecord × Mat)) :
    Ray → ℕ → Vec3
  | _, 0 => ⟨0, 0, 0⟩
  | r, depth + 1 =>
    match worldHit r (1 / 1000) f64MAX with
    | some (rec, mat) =>
      match mat.scatter r rec with
      | some (attenuation, scattered) =>
          attenuation * ray_color worldHit scattered depth
      | none => ⟨0, 0, 0⟩
    | none =>
      let unit_direction := r.dir.to_unit
      let t := 0.5 * (unit_direction.y + 1.0)
      (⟨1, 1, 1⟩ : Vec3) * (1 - t) + (⟨0.5, 0.7, 1⟩ : Vec3) * t

end Early

/-! ## `Dielectric` (`src/material/mod.rs` lines 112-161) -/

/-- `Dielectric { ir }`. -/
structure Dielectric where
  ir : ℝ

namespace Dielectric

/-- `Dielectric::reflectance` (Schlick's approximation,
`material/mod.rs` lines 124-128). -/
def reflectance (cos ref_idx : ℝ) : ℝ :=
  let r0 := (1 - ref_idx) / (1 + ref_idx)
  let r0 := r0 * r0
  r0 + (1 - r0) * (1 - cos) ^ 5

/-- `Dielectric::scatter` (`material/mod.rs` lines 132-160), with the
uniform draw `rng.gen_range(0.0..1.0)` made the explicit argument
`random_double`.  The index quotient is `1/ir` on a front face and `ir`
otherwise; the ray reflects on total internal reflection or when the
Schlick reflectance exceeds the draw, refracts otherwise; attenuation is
white and the reported pdf is 0. -/
def scatter (d : Dielectric) (random_double : ℝ) (r_in : Ray)
    (rec : HitRecord) : Option (Vec3 × Ray × ℝ) :=
  let eta := if rec.front_face then 1 / d.ir else d.ir
  let unit_direction := r_in.dir.to_unit
  let cos_theta := min (Vec3.dot (Vec3.neg unit_direction) rec.normal) 1
  let sin_theta := Real.sqrt (1 - cos_theta ^ 2)
  let cannot_refract := eta * sin_theta > 1
  let direction :=
    if cannot_refract ∨ reflectance cos_theta eta > random_double then
      Vec3.reflect unit_direction rec.normal
    else
      Vec3.refract unit_direction rec.normal eta
  some (⟨1, 1, 1⟩, ⟨rec.p, direction, r_in.tm⟩, 0)

end Dielectric

/-! ## A floating-point model for the degenerate-geometry behaviour

The real-valued embedding above is the rounding-free idealization of `f64`
and silently ignores NaN and the infinities (in Lean, `x / 0 = 0`).  The
spec's degenerate-geometry requirement is precisely about NaN/Infinity
propagation, so it is settled in the model below: IEEE-754 special values
with exact arithmetic on finite values (rounding is irrelevant to the
degenerate inputs, which evaluate exactly) and without the sign of zero
(which none of the operations below observes on these inputs). -/

/-- An `f64` value: a finite real, one of the two infinities, or NaN. -/
inductive F where
  | fin : ℝ → F
  | pinf : F
  | minf : F
  | nan : F

namespace F

/-- IEEE negation. -/
def neg : F → F
  | fin a => fin (-a)
  | pinf => minf
  | minf => pinf
  | nan => nan

/-- IEEE addition: NaN absorbs, opposite infinities give NaN. -/
def add : F → F → F
  | nan, _ => nan
  | _, nan => nan
  | fin a, fin b => fin (a + b)
  | fin _, pinf => pinf
  | fin _, minf => minf
  | pinf, fin _ => pinf
  | minf, fin _ => minf
  | pinf, pinf => pinf
  | minf, minf => minf
  | pinf, minf => nan
  | minf, pinf => nan

/-- IEEE subtraction, `x - y = x + (-y)`. -/
def sub (a b : F) : F := a.add b.neg

/-- IEEE multiplication: NaN absorbs, `0 * ∞ = NaN`, signs otherwise. -/
def mul : F → F → F
  | nan, _ => nan
  | _, nan => nan
  | fin a, fin b => fin (a * b)
  | fin a, pinf => if a = 0 then nan else if 0 < a then pinf else minf
  | fin a, minf => if a = 0 then nan else if 0 < a then minf else pinf
  | pinf, fin b => if b = 0 then nan else if 0 < b then pinf else minf
  | minf, fin b => if b = 0 then nan else if 0 < b then minf else pinf
  | pinf, pinf => pinf
  | minf, minf => pinf
  | pinf, minf => minf
  | minf, pinf => minf

/-- IEEE division: `0/0 = NaN`, `x/0 = ±∞` for finite nonzero `x`
(the model's zero is unsigned and read as `+0`), `∞/∞ = NaN`. -/
def div : F → F → F
  | nan, _ => nan
  | _, nan => nan
  | fin a, fin b =>
      if b = 0 then (if a = 0 then nan else if 0 < a then pinf else minf)
      else fin (a / b)
  | fin _, pinf => fin 0
  | fin _, minf => fin 0
  | pinf, fin b => if 0 ≤ b then pinf else minf
  | minf, fin b => if 0 ≤ b then minf else pinf
  | pinf, _ => nan
  | minf, _ => nan

/-- IEEE square root: NaN on negative finite input and on `-∞`. -/
def sqrt : F → F
  | fin a => if a < 0 then nan else fin (Real.sqrt a)
  | pinf => pinf
  | minf => nan
  | nan => nan

/-- The IEEE `<` comparison: false whenever either operand is NaN. -/
def flt : F → F → Prop
  | nan, _ => False
  | _, nan => False
  | fin a, fin b => a < b
  | fin _, pinf => True
  | fin _, minf => False
  | pinf, fin _ => False
  | minf, fin _ => True
  | pinf, pinf => False
  | minf, minf => False
  | minf, pinf => True
  | pinf, minf => False

instance : ∀ a b : F, Decidable (flt a b) := fun a b => by
  cases a <;> cases b <;> simp only [flt] <;> infer_instance

end F

/-- A 3-component `f64` vector in the floating-point model. -/
structure Vec3F where
  x : F
  y : F
  z : F

namespace Vec3F

/-- Componentwise addition. -/
def add (a b : Vec3F) : Vec3F := ⟨a.x.add b.x, a.y.add b.y, a.z.add b.z⟩

/-- Componentwise subtraction. -/
def sub (a b : Vec3F) : Vec3F := ⟨a.x.sub b.x, a.y.sub b.y, a.z.sub b.z⟩

/-- Componentwise negation. -/
def neg (a : Vec3F) : Vec3F := ⟨a.x.neg, a.y.neg, a.z.neg⟩

/-- Scaling by a scalar on the right. -/
def smul (a : Vec3F) (k : F) : Vec3F := ⟨a.x.mul k, a.y.mul k, a.z.mul k⟩

/-- Division by a scalar. -/
def sdiv (a : Vec3F) (k : F) : Vec3F := ⟨a.x.div k, a.y.div k, a.z.div k⟩

/-- Dot product, summed left to right as in the source. -/
def dot (a b : Vec3F) : F :=
  ((a.x.mul b.x).add (a.y.mul b.y)).add (a.z.mul b.z)

/-- Squared length. -/
def length_sqr (a : Vec3F) : F := dot a a

end Vec3F

/-- The early tree's `Ray` in the floating-point model. -/
structure RayF where
  orig : Vec3F
  dir : Vec3F

/-- `Ray::at(t) = orig + dir * t`. -/
def RayF.at (r : RayF) (t : F) : Vec3F := r.orig.add (r.dir.smul t)

/-- The early tree's `HitRecord` in the floating-point model. -/
structure HitRecordF where
  p : Vec3F
  normal : Vec3F
  t : F
  front_face : Bool

/-- Modelled from the spec: `HitRecord::set_face_normal` in the
floating-point model, with the IEEE `<` (false on NaN). -/
def HitRecordF.set_face_normal (rec : HitRecordF) (r : RayF)
    (outward_normal : Vec3F) : HitRecordF :=
  if F.flt (Vec3F.dot r.dir outward_normal) (F.fin 0) then
    { rec with front_face := true, normal := outward_normal }
  else
    { rec with front_face := false, normal := outward_normal.neg }

/-- The early tree's `Sphere` in the floating-point model. -/
structure SphereF where
  center : Vec3F
  radius : F

namespace SphereF

/-- The record construction of `sphere.rs` lines 38-47 in the
floating-point model. -/
def mk_rec (s : SphereF) (r : RayF) (root : F) : HitRecordF :=
  let rec0 : HitRecordF :=
    ⟨r.at root, ((r.at root).sub s.center).sdiv s.radius, root, false⟩
  let outward_normal := (rec0.p.sub s.center).sdiv s.radius
  rec0.set_face_normal r outward_normal

/-- `Sphere::hit` of `sphere.rs` in the floating-point model, comparisons
and arithmetic IEEE (`powi(2)` is exact squaring), shadowing preserved. -/
def hit (s : SphereF) (r : RayF) (t_min t_max : F) : Option HitRecordF :=
  let oc := r.orig.sub s.center
  let a := r.dir.length_sqr
  let half_b := Vec3F.dot oc r.dir
  let c := (oc.length_sqr).sub (s.radius.mul s.radius)
  let discriminant := (half_b.mul half_b).sub (a.mul c)
  if F.flt discriminant (F.fin 0) then none
  else
    let sqrtd := discriminant.sqrt
    let root := ((half_b.neg).sub sqrtd).div a
    if F.flt root t_min ∨ F.flt t_max root then
      let root2 := ((half_b.neg).add sqrtd).div a
      if F.flt root2 t_min ∨ F.flt t_max root2 then none
      else some (mk_rec s r root)
    else some (mk_rec s r root)

end SphereF

/-! ## Helper lemmas -/

/-- `dot` is antitone under negation of one argument. -/
theorem Vec3.dot_neg_right (a b : Vec3) : Vec3.dot a (Vec3.neg b) = -Vec3.dot a b := by
  simp only [Vec3.neg, Vec3.dot]
  ring

/-- A vector of unit squared length is not `near_zero`. -/
theorem Vec3.not_near_zero_of_unit (v : Vec3) (h : v.length_sqr = 1) :
    ¬ v.near_zero := by
  rintro ⟨h1, h2, h3⟩
  have hx : v.x * v.x < (1 / 10 ^ 8) * (1 / 10 ^ 8) := by
    rw [← abs_mul_abs_self]
    exact mul_self_lt_mul_self (abs_nonneg _) h1
  have hy : v.y * v.y < (1 / 10 ^ 8) * (1 / 10 ^ 8) := by
    rw [← abs_mul_abs_self]
    exact mul_self_lt_mul_self (abs_nonneg _) h2
  have hz : v.z * v.z < (1 / 10 ^ 8) * (1 / 10 ^ 8) := by
    rw [← abs_mul_abs_self]
    exact mul_self_lt_mul_self (abs_nonneg _) h3
  rw [Vec3.length_sqr_def] at h
  norm_num at hx hy hz
  linarith

/-- `set_face_normal` records the front-face test and orients the stored
normal against the incoming ray. -/
theorem HitRecord.set_face_normal_spec_later (rec : HitRecord) (r : Ray) (ow : Vec3) :
    (((rec.set_face_normal r ow).front_face = true) ↔ Vec3.dot r.dir ow < 0)
    ∧ (Vec3.dot r.dir ow ≠ 0 →
        Vec3.dot r.dir (rec.set_face_normal r ow).normal < 0)
    ∧ (rec.set_face_normal r ow).t = rec.t
    ∧ (rec.set_face_normal r ow).p = rec.p := by
  unfold HitRecord.set_face_normal
  by_cases h : Vec3.dot r.dir ow < 0
  · rw [if_pos h]
    exact ⟨⟨fun _ => h, fun _ => rfl⟩, fun _ => h, rfl, rfl⟩
  · rw [if_neg h]
    refine ⟨⟨fun hft => (Bool.false_ne_true hft).elim, fun hlt => absurd hlt h⟩,
      fun hne => ?_, rfl, rfl⟩
    show Vec3.dot r.dir (Vec3.neg ow) < 0
    rw [Vec3.dot_neg_right]
    have : 0 < Vec3.dot r.dir ow := lt_of_le_of_ne (not_lt.mp h) (Ne.symm hne)
    linarith

/-- The early tree's `set_face_normal` satisfies the same contract. -/
theorem Early.HitRecord.set_face_normal_spec_early (rec : Early.HitRecord)
    (r : Early.Ray) (ow : Vec3) :
    (((rec.set_face_normal r ow).front_face = true) ↔ Vec3.dot r.dir ow < 0)
    ∧ (Vec3.dot r.dir ow ≠ 0 →
        Vec3.dot r.dir (rec.set_face_normal r ow).normal < 0)
    ∧ (rec.set_face_normal r ow).t = rec.t
    ∧ (rec.set_face_normal r ow).p = rec.p := by
  unfold Early.HitRecord.set_face_normal
  by_cases h : Vec3.dot r.dir ow < 0
  · rw [if_pos h]
    exact ⟨⟨fun _ => h, fun _ => rfl⟩, fun _ => h, rfl, rfl⟩
  · rw [if_neg h]
    refine ⟨⟨fun hft => (Bool.false_ne_true hft).elim, fun hlt => absurd hlt h⟩,
      fun hne => ?_, rfl, rfl⟩
    show Vec3.dot r.dir (Vec3.neg ow) < 0
    rw [Vec3.dot_neg_right]
    have : 0 < Vec3.dot r.dir ow := lt_of_le_of_ne (not_lt.mp h) (Ne.symm hne)
    linarith

/-- Projections of the later sphere's record construction. -/
theorem Sphere.mk_rec_spec_later (s : Sphere) (r : Ray) (root : ℝ) :
    ((Sphere.mk_rec s r root).t = root)
    ∧ ((Sphere.mk_rec s r root).p = r.at root)
    ∧ (((Sphere.mk_rec s r root).front_face = true) ↔
        Vec3.dot r.dir ((r.at root - s.center) / s.radius) < 0)
    ∧ (Vec3.dot r.dir ((r.at root - s.center) / s.radius) ≠ 0 →
        Vec3.dot r.dir (Sphere.mk_rec s r root).normal < 0) := by
  have h := HitRecord.set_face_normal_spec_later
    ⟨r.at root, (r.at root - s.center) / s.radius, root,
      (Sphere.get_sphere_uv ((r.at root - s.center) / s.radius)).1,
      (Sphere.get_sphere_uv ((r.at root - s.center) / s.radius)).2, false⟩
    r ((r.at root - s.center) / s.radius)
  exact ⟨h.2.2.1, h.2.2.2, h.1, h.2.1⟩

/-- Projections of the moving sphere's record construction. -/
theorem MovingSphere.mk_rec_spec_moving (m : MovingSphere) (r : Ray) (root : ℝ) :
    ((MovingSphere.mk_rec m r root).t = root)
    ∧ ((MovingSphere.mk_rec m r root).p = r.at root)
    ∧ (((MovingSphere.mk_rec m r root).front_face = true) ↔
        Vec3.dot r.dir ((r.at root - m.center r.tm) / m.radius) < 0)
    ∧ (Vec3.dot r.dir ((r.at root - m.center r.tm) / m.radius) ≠ 0 →
        Vec3.dot r.dir (MovingSphere.mk_rec m r root).normal < 0) := by
  have h := HitRecord.set_face_normal_spec_later
    ⟨r.at root, (r.at root - m.center r.tm) / m.radius, root,
      (Sphere.get_sphere_uv ((r.at root - m.center r.tm) / m.radius)).1,
      (Sphere.get_sphere_uv ((r.at root - m.center r.tm) / m.radius)).2, false⟩
    r ((r.at root - m.center r.tm) / m.radius)
  exact ⟨h.2.2.1, h.2.2.2, h.1, h.2.1⟩

/-- Projections of the early sphere's record construction. -/
theorem Early.Sphere.mk_rec_spec_early (s : Early.Sphere) (r : Early.Ray) (root : ℝ) :
    ((Early.Sphere.mk_rec s r root).t = root)
    ∧ ((Early.Sphere.mk_rec s r root).p = r.at root)
    ∧ (((Early.Sphere.mk_rec s r root).front_face = true) ↔
        Vec3.dot r.dir ((r.at root - s.center) / s.radius) < 0)
    ∧ (Vec3.dot r.dir ((r.at root - s.center) / s.radius) ≠ 0 →
        Vec3.dot r.dir (Early.Sphere.mk_rec s r root).normal < 0) := by
  have h := Early.HitRecord.set_face_normal_spec_early
    ⟨r.at root, (r.at root - s.center) / s.radius, root, false⟩
    r ((r.at root - s.center) / s.radius)
  exact ⟨h.2.2.1, h.2.2.2, h.1, h.2.1⟩

/-- Every record returned by the later `Sphere::hit` is a `mk_rec`. -/
theorem Sphere.hit_some_later (s : Sphere) (r : Ray) (t_min t_max : ℝ)
    (rec : HitRecord) (h : Sphere.hit s r t_min t_max = some rec) :
    ∃ root, rec = Sphere.mk_rec s r root := by
  simp only [Sphere.hit] at h
  split at h
  · exact absurd h (by simp)
  · split at h
    · split at h
      · exact absurd h (by simp)
      · injection h with h
        exact ⟨_, h.symm⟩
    · injection h with h
      exact ⟨_, h.symm⟩

/-- Every record returned by `MovingSphere::hit` is a `mk_rec`. -/
theorem MovingSphere.hit_some_moving (m : MovingSphere) (r : Ray) (t_min t_max : ℝ)
    (rec : HitRecord) (h : MovingSphere.hit m r t_min t_max = some rec) :
    ∃ root, rec = MovingSphere.mk_rec m r root := by
  simp only [MovingSphere.hit] at h
  split at h
  · exact absurd h (by simp)
  · split at h
    · split at h
      · exact absurd h (by simp)
      · injection h with h
        exact ⟨_, h.symm⟩
    · injection h with h
      exact ⟨_, h.symm⟩

/-- Every record returned by the early `Sphere::hit` is a `mk_rec`. -/
theorem Early.Sphere.hit_some_early (s : Early.Sphere) (r : Early.Ray)
    (t_min t_max : ℝ) (rec : Early.HitRecord)
    (h : Early.Sphere.hit s r t_min t_max = some rec) :
    ∃ root, rec = Early.Sphere.mk_rec s r root := by
  simp only [Early.Sphere.hit] at h
  split at h
  · exact absurd h (by simp)
  · split at h
    · split at h
      · exact absurd h (by simp)
      · injection h with h
        exact ⟨_, h.symm⟩
    · injection h with h
      exact ⟨_, h.symm⟩

/-- Evaluation of the unbounded-range hit at the spec's concrete scenario:
ray `(0,0,0) → (0,1,0)` against the sphere of radius 1 at `(0,5,0)`
accepts the near root `t = 4`. -/
theorem Sphere.hitI_concrete :
    Sphere.hitI ⟨⟨0, 5, 0⟩, 1⟩ ⟨⟨0, 0, 0⟩, ⟨0, 1, 0⟩, 0⟩ (1 / 1000) =
      some (Sphere.mk_rec ⟨⟨0, 5, 0⟩, 1⟩ ⟨⟨0, 0, 0⟩, ⟨0, 1, 0⟩, 0⟩ 4) := by
  norm_num [Sphere.hitI, Ray.at, Vec3.dot, Vec3.length_sqr, Real.sqrt_one]

/-- C4: for the ray with origin `(0,0,0)` and direction `(0,1,0)` against
the sphere centered at `(0,5,0)` with radius 1, `Sphere::hit` over the
range `(0.001, +∞)` returns a hit with `t = 4` (the near root), stored
normal `(0,-1,0)`, and `front_face` true. -/
theorem C4_concrete_scenario_near_root :
    ∃ rec, Sphere.hitI ⟨⟨0, 5, 0⟩, 1⟩ ⟨⟨0, 0, 0⟩, ⟨0, 1, 0⟩, 0⟩ (1 / 1000) =
        some rec ∧
      rec.t = 4 ∧ rec.normal = ⟨0, -1, 0⟩ ∧ rec.front_face = true := by
  refine ⟨_, Sphere.hitI_concrete, ?_, ?_, ?_⟩ <;>
    norm_num [Sphere.mk_rec, HitRecord.set_face_normal, Ray.at, Vec3.dot]

/-- C7: every hit record returned by a hit method (both generations of
`Sphere::hit`, and `MovingSphere::hit`) has `front_face` true exactly when
`dot(ray.direction, outward_normal) < 0`, and its stored normal faces the
incoming ray: `dot(ray.direction, stored normal) < 0` whenever
`dot(ray.direction, outward_normal) ≠ 0` (the outward normal being
`(r.at(rec.t) - center) / radius`). -/
theorem C7_front_face_and_oriented_normal :
    (∀ (s : Sphere) (r : Ray) (t_min t_max : ℝ) (rec : HitRecord),
        Sphere.hit s r t_min t_max = some rec →
        ((rec.front_face = true ↔
            Vec3.dot r.dir ((r.at rec.t - s.center) / s.radius) < 0)
          ∧ (Vec3.dot r.dir ((r.at rec.t - s.center) / s.radius) ≠ 0 →
              Vec3.dot r.dir rec.normal < 0)))
    ∧ (∀ (m : MovingSphere) (r : Ray) (t_min t_max : ℝ) (rec : HitRecord),
        MovingSphere.hit m r t_min t_max = some rec →
        ((rec.front_face = true ↔
            Vec3.dot r.dir ((r.at rec.t - m.center r.tm) / m.radius) < 0)
          ∧ (Vec3.dot r.dir ((r.at rec.t - m.center r.tm) / m.radius) ≠ 0 →
              Vec3.dot r.dir rec.normal < 0)))
    ∧ (∀ (s : Early.Sphere) (r : Early.Ray) (t_min t_max : ℝ)
          (rec : Early.HitRecord),
        Early.Sphere.hit s r t_min t_max = some rec →
        ((rec.front_face = true ↔
            Vec3.dot r.dir ((r.at rec.t - s.center) / s.radius) < 0)
          ∧ (Vec3.dot r.dir ((r.at rec.t - s.center) / s.radius) ≠ 0 →
              Vec3.dot r.dir rec.normal < 0))) := by
  refine ⟨fun s r t_min t_max rec h => ?_, fun m r t_min t_max rec h => ?_,
    fun s r t_min t_max rec h => ?_⟩
  · obtain ⟨root, rfl⟩ := Sphere.hit_some_later s r t_min t_max rec h
    have hs := Sphere.mk_rec_spec_later s r root
    rw [hs.1]
    exact ⟨hs.2.2.1, hs.2.2.2⟩
  · obtain ⟨root, rfl⟩ := MovingSphere.hit_some_moving m r t_min t_max rec h
    have hs := MovingSphere.mk_rec_spec_moving m r root
    rw [hs.1]
    exact ⟨hs.2.2.1, hs.2.2.2⟩
  · obtain ⟨root, rfl⟩ := Early.Sphere.hit_some_early s r t_min t_max rec h
    have hs := Early.Sphere.mk_rec_spec_early s r root
    rw [hs.1]
    exact ⟨hs.2.2.1, hs.2.2.2⟩

/-- Witness for C7 at the concrete scenario of C4's sources: the bounded
hit over `(0.001, 100)` returns a record, and that record satisfies the
front-face and normal-orientation properties. -/
theorem C7_front_face_and_oriented_normal_witness :
    ∃ rec, Sphere.hit ⟨⟨0, 5, 0⟩, 1⟩ ⟨⟨0, 0, 0⟩, ⟨0, 1, 0⟩, 0⟩ (1 / 1000) 100 =
        some rec ∧
      ((rec.front_face = true ↔
          Vec3.dot (⟨⟨0, 0, 0⟩, ⟨0, 1, 0⟩, 0⟩ : Ray).dir
            (((⟨⟨0, 0, 0⟩, ⟨0, 1, 0⟩, 0⟩ : Ray).at rec.t - (⟨0, 5, 0⟩ : Vec3)) / (1 : ℝ)) < 0)
        ∧ (Vec3.dot (⟨⟨0, 0, 0⟩, ⟨0, 1, 0⟩, 0⟩ : Ray).dir
            (((⟨⟨0, 0, 0⟩, ⟨0, 1, 0⟩, 0⟩ : Ray).at rec.t - (⟨0, 5, 0⟩ : Vec3)) / (1 : ℝ)) ≠ 0 →
            Vec3.dot (⟨⟨0, 0, 0⟩, ⟨0, 1, 0⟩, 0⟩ : Ray).dir rec.normal < 0)) := by
  have heval :
      Sphere.hit ⟨⟨0, 5, 0⟩, 1⟩ ⟨⟨0, 0, 0⟩, ⟨0, 1, 0⟩, 0⟩ (1 / 1000) 100 =
        some (Sphere.mk_rec ⟨⟨0, 5, 0⟩, 1⟩ ⟨⟨0, 0, 0⟩, ⟨0, 1, 0⟩, 0⟩ 4) := by
    norm_num [Sphere.hit, Ray.at, Vec3.dot, Vec3.length_sqr, Real.sqrt_one]
  exact ⟨_, heval,
    C7_front_face_and_oriented_normal.1 ⟨⟨0, 5, 0⟩, 1⟩ ⟨⟨0, 0, 0⟩, ⟨0, 1, 0⟩, 0⟩
      (1 / 1000) 100 _ heval⟩

/-- C1: root selection of `Sphere::hit`.  For the unit sphere at the
origin and the ray `(0,0,-2) → (0,0,1)` over the range `(2, 10)` the
quadratic roots are 1 and 3; the smaller root 1 fails the range test and
the larger root 3 passes it.  `hittable/sphere.rs` then builds the record
from the larger root (`t = 3`), as the claim states; but the early
`src/sphere.rs` builds it from the rejected smaller root (`t = 1`, outside
the range), because its retried root is bound by a shadowed inner `let`. -/
theorem C1_early_hit_built_from_rejected_root :
    (∃ rec, Early.Sphere.hit ⟨⟨0, 0, 0⟩, 1⟩ ⟨⟨0, 0, -2⟩, ⟨0, 0, 1⟩⟩ 2 10 =
        some rec ∧ rec.t = 1 ∧ rec.t < 2)
    ∧ (∃ rec, Sphere.hit ⟨⟨0, 0, 0⟩, 1⟩ ⟨⟨0, 0, -2⟩, ⟨0, 0, 1⟩, 0⟩ 2 10 =
        some rec ∧ rec.t = 3) := by
  constructor
  · have heval :
        Early.Sphere.hit ⟨⟨0, 0, 0⟩, 1⟩ ⟨⟨0, 0, -2⟩, ⟨0, 0, 1⟩⟩ 2 10 =
          some (Early.Sphere.mk_rec ⟨⟨0, 0, 0⟩, 1⟩ ⟨⟨0, 0, -2⟩, ⟨0, 0, 1⟩⟩ 1) := by
      norm_num [Early.Sphere.hit, Early.Ray.at, Vec3.dot, Vec3.length_sqr,
        Real.sqrt_one]
    refine ⟨_, heval, ?_, ?_⟩ <;>
      norm_num [(Early.Sphere.mk_rec_spec_early ⟨⟨0, 0, 0⟩, 1⟩ ⟨⟨0, 0, -2⟩, ⟨0, 0, 1⟩⟩ 1).1]
  · have heval :
        Sphere.hit ⟨⟨0, 0, 0⟩, 1⟩ ⟨⟨0, 0, -2⟩, ⟨0, 0, 1⟩, 0⟩ 2 10 =
          some (Sphere.mk_rec ⟨⟨0, 0, 0⟩, 1⟩ ⟨⟨0, 0, -2⟩, ⟨0, 0, 1⟩, 0⟩ 3) := by
      norm_num [Sphere.hit, Ray.at, Vec3.dot, Vec3.length_sqr, Real.sqrt_one]
    exact ⟨_, heval, (Sphere.mk_rec_spec_later ⟨⟨0, 0, 0⟩, 1⟩ ⟨⟨0, 0, -2⟩, ⟨0, 0, 1⟩, 0⟩ 3).1⟩

/-- The floating-point record construction stores the given root as `t`. -/
theorem SphereF.mk_rec_t (s : SphereF) (r : RayF) (root : F) :
    (SphereF.mk_rec s r root).t = root := by
  simp only [SphereF.mk_rec, HitRecordF.set_face_normal]
  split <;> rfl

/-- C2: degenerate geometry is not rejected.  A ray with zero-length
direction makes the quadratic coefficient `a = 0` and the discriminant `0`,
so the root `0/0` is NaN; NaN fails both range comparisons, the NaN root is
accepted, and `Sphere::hit` returns a record whose `t` (and point and
normal) is NaN instead of returning no intersection.  A sphere of negative
radius (here `-1`, via `radius * radius`) behaves like its absolute value
and also returns a hit rather than none. -/
theorem C2_degenerate_geometry_returns_some :
    (∃ rec, SphereF.hit ⟨⟨F.fin 0, F.fin 0, F.fin (-5)⟩, F.fin 1⟩
        ⟨⟨F.fin 0, F.fin 0, F.fin 0⟩, ⟨F.fin 0, F.fin 0, F.fin 0⟩⟩
        (F.fin (1 / 1000)) F.pinf = some rec ∧ rec.t = F.nan)
    ∧ (∃ rec, Sphere.hit ⟨⟨0, 5, 0⟩, -1⟩ ⟨⟨0, 0, 0⟩, ⟨0, 1, 0⟩, 0⟩
        (1 / 1000) 100 = some rec ∧ rec.t = 4) := by
  constructor
  · have heval :
        SphereF.hit ⟨⟨F.fin 0, F.fin 0, F.fin (-5)⟩, F.fin 1⟩
          ⟨⟨F.fin 0, F.fin 0, F.fin 0⟩, ⟨F.fin 0, F.fin 0, F.fin 0⟩⟩
          (F.fin (1 / 1000)) F.pinf =
        some (SphereF.mk_rec ⟨⟨F.fin 0, F.fin 0, F.fin (-5)⟩, F.fin 1⟩
          ⟨⟨F.fin 0, F.fin 0, F.fin 0⟩, ⟨F.fin 0, F.fin 0, F.fin 0⟩⟩ F.nan) := by
      norm_num [SphereF.hit, Vec3F.dot, Vec3F.length_sqr, Vec3F.sub,
        F.sub, F.add, F.mul, F.neg, F.div, F.sqrt, F.flt, Real.sqrt_zero]
    exact ⟨_, heval, SphereF.mk_rec_t _ _ _⟩
  · have heval :
        Sphere.hit ⟨⟨0, 5, 0⟩, -1⟩ ⟨⟨0, 0, 0⟩, ⟨0, 1, 0⟩, 0⟩ (1 / 1000) 100 =
          some (Sphere.mk_rec ⟨⟨0, 5, 0⟩, -1⟩ ⟨⟨0, 0, 0⟩, ⟨0, 1, 0⟩, 0⟩ 4) := by
      norm_num [Sphere.hit, Ray.at, Vec3.dot, Vec3.length_sqr, Real.sqrt_one]
    exact ⟨_, heval, (Sphere.mk_rec_spec_later ⟨⟨0, 5, 0⟩, -1⟩ ⟨⟨0, 0, 0⟩, ⟨0, 1, 0⟩, 0⟩ 4).1⟩

/-- C6: `Sphere::pdf_value` returns `1 / solid_angle` with
`solid_angle = 2π(1 - cos_max)` and `cos_max = sqrt(1 - r²/|C-O|²)`
whenever the ray from the origin toward the direction hits the sphere
(over `(0.001, +∞)`, as the source tests), and 0 whenever it does not;
stated for origins outside the sphere, as the claim does. -/
theorem C6_pdf_value_solid_angle (s : Sphere) (o v : Vec3)
    (_hout : s.radius ^ 2 < (s.center - o).length_sqr) :
    ((Sphere.hitI s ⟨o, v, 0⟩ (1 / 1000)).isSome = true →
        Sphere.pdf_value s o v =
          1 / (2 * Real.pi *
            (1 - Real.sqrt (1 - s.radius ^ 2 / (s.center - o).length_sqr))))
    ∧ ((Sphere.hitI s ⟨o, v, 0⟩ (1 / 1000)).isSome = false →
        Sphere.pdf_value s o v = 0) := by
  cases h : Sphere.hitI s ⟨o, v, 0⟩ (1 / 1000) with
  | none =>
      refine ⟨fun hs => ?_, fun _ => ?_⟩
      · simp at hs
      · simp only [Sphere.pdf_value, h]
  | some rec =>
      refine ⟨fun _ => ?_, fun hs => ?_⟩
      · simp only [Sphere.pdf_value, h]
        rw [pow_two]
      · simp at hs

/-- Witness for C6 at the concrete scenario: the sphere of radius 1 at
`(0,5,0)` seen from the origin along `(0,1,0)` is hit, and the PDF equals
the reciprocal solid angle `1/(2π(1 - sqrt(24/25)))`. -/
theorem C6_pdf_value_solid_angle_witness :
    Sphere.pdf_value ⟨⟨0, 5, 0⟩, 1⟩ ⟨0, 0, 0⟩ ⟨0, 1, 0⟩ =
      1 / (2 * Real.pi * (1 - Real.sqrt (24 / 25))) := by
  have hout : ((⟨⟨0, 5, 0⟩, 1⟩ : Sphere)).radius ^ 2 <
      ((⟨⟨0, 5, 0⟩, 1⟩ : Sphere).center - ⟨0, 0, 0⟩).length_sqr := by
    norm_num [Vec3.length_sqr, Vec3.dot]
  have h := (C6_pdf_value_solid_angle ⟨⟨0, 5, 0⟩, 1⟩ ⟨0, 0, 0⟩ ⟨0, 1, 0⟩ hout).1
    (by rw [Sphere.hitI_concrete]; rfl)
  rw [h]
  norm_num [Vec3.length_sqr, Vec3.dot]

/-- Schlick's reflectance is invariant under inverting the index quotient:
`((1 - 1/x)/(1 + 1/x))² = ((1 - x)/(1 + x))²` for `x > 0`. -/
theorem Dielectric.reflectance_inv (cos ir : ℝ) (h : 0 < ir) :
    Dielectric.reflectance cos (1 / ir) = Dielectric.reflectance cos ir := by
  have hir : ir ≠ 0 := ne_of_gt h
  have key : ((1 - 1 / ir) / (1 + 1 / ir)) * ((1 - 1 / ir) / (1 + 1 / ir))
      = ((1 - ir) / (1 + ir)) * ((1 - ir) / (1 + ir)) := by
    rw [div_mul_div_comm, div_mul_div_comm,
      div_eq_div_iff (by positivity) (by positivity)]
    field_simp
    ring
  simp only [Dielectric.reflectance]
  rw [key]

/-- C5: `Dielectric::scatter` uses the index quotient `1/ir` on a front
face and `ir` otherwise; it reflects exactly when the quotient times
`sin_theta` exceeds 1 (total internal reflection) or when Schlick's
reflectance — with `r0 = ((1-ir)/(1+ir))²`, as the claim writes it —
exceeds the uniform draw, and refracts otherwise; the reported pdf is 0.
(The source passes the current quotient to `reflectance`; for `ir > 0`
this agrees with the claim's `r0` built from `ir`, by
`Dielectric.reflectance_inv`.) -/
theorem C5_dielectric_schlick_branching (d : Dielectric) (random_double : ℝ)
    (r_in : Ray) (rec : HitRecord) (h : 0 < d.ir) :
    Dielectric.scatter d random_double r_in rec =
      some (⟨1, 1, 1⟩,
        ⟨rec.p,
          (if (if rec.front_face then 1 / d.ir else d.ir) *
                Real.sqrt
                  (1 - min (Vec3.dot (Vec3.neg r_in.dir.to_unit) rec.normal) 1 ^ 2) > 1
              ∨ Dielectric.reflectance
                  (min (Vec3.dot (Vec3.neg r_in.dir.to_unit) rec.normal) 1) d.ir >
                random_double then
            Vec3.reflect r_in.dir.to_unit rec.normal
          else
            Vec3.refract r_in.dir.to_unit rec.normal
              (if rec.front_face then 1 / d.ir else d.ir)),
          r_in.tm⟩,
        0) := by
  simp only [Dielectric.scatter]
  cases hf : rec.front_face
  · simp only [hf, Bool.false_eq_true, if_false]
  · simp only [hf, if_true]
    rw [Dielectric.reflectance_inv _ _ h]

/-- C10: `Dielectric::scatter` always returns `Some`, with attenuation
exactly `Color(1,1,1)` and pdf 0, whether it reflects or refracts. -/
theorem C10_dielectric_never_absorbs (d : Dielectric) (random_double : ℝ)
    (r_in : Ray) (rec : HitRecord) :
    ∃ scattered, Dielectric.scatter d random_double r_in rec =
      some (⟨1, 1, 1⟩, scattered, 0) :=
  ⟨_, rfl⟩

/-- Witness for C5: the branching equation instantiated at a concrete
dielectric (`ir = 3/2`), draw `1/2`, ray and front-face hit record. -/
theorem C5_dielectric_schlick_branching_witness :
    Dielectric.scatter ⟨3 / 2⟩ (1 / 2) ⟨⟨0, 0, 0⟩, ⟨0, 1, 0⟩, 0⟩
        ⟨⟨0, 0, 0⟩, ⟨0, -1, 0⟩, 4, 0, 0, true⟩ =
      some (⟨1, 1, 1⟩,
        ⟨⟨0, 0, 0⟩,
          (if (if (true : Bool) then 1 / (3 / 2 : ℝ) else 3 / 2) *
                Real.sqrt
                  (1 - min (Vec3.dot (Vec3.neg (Vec3.to_unit ⟨0, 1, 0⟩)) ⟨0, -1, 0⟩) 1 ^ 2) > 1
              ∨ Dielectric.reflectance
                  (min (Vec3.dot (Vec3.neg (Vec3.to_unit ⟨0, 1, 0⟩)) ⟨0, -1, 0⟩) 1)
                  (3 / 2) > 1 / 2 then
            Vec3.reflect (Vec3.to_unit ⟨0, 1, 0⟩) ⟨0, -1, 0⟩
          else
            Vec3.refract (Vec3.to_unit ⟨0, 1, 0⟩) ⟨0, -1, 0⟩
              (if (true : Bool) then 1 / (3 / 2 : ℝ) else 3 / 2)),
          0⟩,
        0) :=
  C5_dielectric_schlick_branching ⟨3 / 2⟩ (1 / 2) ⟨⟨0, 0, 0⟩, ⟨0, 1, 0⟩, 0⟩
    ⟨⟨0, 0, 0⟩, ⟨0, -1, 0⟩, 4, 0, 0, true⟩ (by norm_num)

/-- C9: the early tree's `Lambertian::scatter` always returns `Some`, with
attenuation exactly the albedo and scattered origin the hit point; when
`normal + random_unit_vector` is near zero the direction falls back to the
surface normal, so (for a unit surface normal) the scattered direction is
never near zero. -/
theorem C9_lambertian_always_scatters (l : Early.Lambertian) (rand_unit : Vec3)
    (r_in : Early.Ray) (rec : Early.HitRecord)
    (hn : rec.normal.length_sqr = 1) :
    ∃ direction, Early.Lambertian.scatter l rand_unit r_in rec =
        some (l.albedo, ⟨rec.p, direction⟩)
      ∧ ¬ direction.near_zero
      ∧ ((rec.normal + rand_unit).near_zero → direction = rec.normal)
      ∧ (¬ (rec.normal + rand_unit).near_zero →
          direction = rec.normal + rand_unit) := by
  by_cases h : (rec.normal + rand_unit).near_zero
  · refine ⟨rec.normal, ?_, Vec3.not_near_zero_of_unit _ hn, fun _ => rfl,
      fun hc => absurd h hc⟩
    simp only [Early.Lambertian.scatter, if_pos h]
  · refine ⟨rec.normal + rand_unit, ?_, h, fun hc => absurd hc h, fun _ => rfl⟩
    simp only [Early.Lambertian.scatter, if_neg h]

/-- Witness for C9 at a concrete albedo, unit normal and random draw. -/
theorem C9_lambertian_always_scatters_witness :
    Vec3.length_sqr ⟨0, 1, 0⟩ = 1 ∧
    ∃ direction, Early.Lambertian.scatter ⟨⟨1 / 2, 1 / 2, 1 / 2⟩⟩ ⟨0, 0, 1⟩
        ⟨⟨0, 0, 0⟩, ⟨0, 1, 0⟩⟩ ⟨⟨0, 0, 0⟩, ⟨0, 1, 0⟩, 1, true⟩ =
        some (⟨1 / 2, 1 / 2, 1 / 2⟩, ⟨⟨0, 0, 0⟩, direction⟩)
      ∧ ¬ direction.near_zero
      ∧ (Vec3.near_zero ((⟨0, 1, 0⟩ : Vec3) + ⟨0, 0, 1⟩) → direction = ⟨0, 1, 0⟩)
      ∧ (¬ Vec3.near_zero ((⟨0, 1, 0⟩ : Vec3) + ⟨0, 0, 1⟩) →
          direction = (⟨0, 1, 0⟩ : Vec3) + ⟨0, 0, 1⟩) :=
  ⟨by norm_num [Vec3.length_sqr, Vec3.dot],
   C9_lambertian_always_scatters ⟨⟨1 / 2, 1 / 2, 1 / 2⟩⟩ ⟨0, 0, 1⟩
     ⟨⟨0, 0, 0⟩, ⟨0, 1, 0⟩⟩ ⟨⟨0, 0, 0⟩, ⟨0, 1, 0⟩, 1, true⟩
     (by norm_num [Vec3.length_sqr, Vec3.dot])⟩

/-- Prepending the zero color is the identity. -/
theorem Vec3.zero_add_vec (v : Vec3) : (⟨0, 0, 0⟩ : Vec3) + v = v := by
  cases v
  simp

/-- C3: on a hit with positive depth, the `main.rs` estimator's result is
the hit material's emitted color — the `Material::emitted` default, black,
which is what every material seen by this estimator reports — alone when
`scatter` returns nothing, and emitted plus the attenuated recursive term
when it returns a scattered ray. -/
theorem C3_estimator_adds_emitted
    (worldHit : Early.Ray → ℝ → ℝ → Option (Early.HitRecord × Early.Mat))
    (r : Early.Ray) (depth : ℕ) (rec : Early.HitRecord) (mat : Early.Mat)
    (attenuation : Vec3) (scattered : Early.Ray)
    (hd : 0 < depth)
    (hh : worldHit r (1 / 1000) Early.f64MAX = some (rec, mat)) :
    (mat.scatter r rec = none →
        Early.ray_color worldHit r depth = Early.defaultEmitted r rec)
    ∧ (mat.scatter r rec = some (attenuation, scattered) →
        Early.ray_color worldHit r depth =
          Early.defaultEmitted r rec +
            attenuation * Early.ray_color worldHit scattered (depth - 1)) := by
  obtain ⟨d, rfl⟩ : ∃ d, depth = d + 1 :=
    ⟨depth - 1, (Nat.succ_pred_eq_of_pos hd).symm⟩
  constructor
  · intro hs
    simp only [Early.ray_color, hh, hs]
    rfl
  · intro hs
    simp only [Early.ray_color, hh, hs, Nat.add_sub_cancel]
    simp only [Early.defaultEmitted]
    rw [Vec3.zero_add_vec]

/-- A constant hit record for the estimator witness. -/
def Early.wRec : Early.HitRecord := ⟨⟨0, 0, 0⟩, ⟨0, 1, 0⟩, 1, true⟩

/-- An absorbing material for the estimator witness. -/
def Early.wMat : Early.Mat := ⟨fun _ _ => none⟩

/-- A constant scene for the estimator witness: every ray hits `wRec`
with material `wMat`. -/
def Early.wHit : Early.Ray → ℝ → ℝ → Option (Early.HitRecord × Early.Mat) :=
  fun _ _ _ => some (Early.wRec, Early.wMat)

/-- Witness for C3: for the constant scene with an absorbing material and
depth 1, the estimator returns the (black) emitted color alone. -/
theorem C3_estimator_adds_emitted_witness :
    Early.ray_color Early.wHit ⟨⟨0, 0, 0⟩, ⟨0, 1, 0⟩⟩ 1 =
      Early.defaultEmitted ⟨⟨0, 0, 0⟩, ⟨0, 1, 0⟩⟩ Early.wRec :=
  (C3_estimator_adds_emitted Early.wHit ⟨⟨0, 0, 0⟩, ⟨0, 1, 0⟩⟩ 1 Early.wRec
    Early.wMat ⟨0, 0, 0⟩ ⟨⟨0, 0, 0⟩, ⟨0, 1, 0⟩⟩ (by norm_num) rfl).1 rfl

/-- Counterexample to C8's stated range: the seam point `(-1,0,0)` lies on
the unit sphere, yet `get_sphere_uv` sends it to `u = 1`, which is outside
`[0,1)` (atan2 takes values in `(-π, π]`, so `u = (atan2 + π)/(2π)` ranges
over `(0, 1]`, not `[0, 1)`). -/
theorem C8_seam_point_u_eq_one :
    Vec3.length_sqr ⟨-1, 0, 0⟩ = 1
    ∧ (Sphere.get_sphere_uv ⟨-1, 0, 0⟩).1 = 1
    ∧ ¬ ((Sphere.get_sphere_uv ⟨-1, 0, 0⟩).1 < 1) := by
  have hu : (Sphere.get_sphere_uv ⟨-1, 0, 0⟩).1 = 1 := by
    show (atan2 (-(0 : ℝ)) (-1) + Real.pi) / (2 * Real.pi) = 1
    have harg : atan2 (-(0 : ℝ)) (-1) = Real.pi := by
      unfold atan2
      have hc : (⟨-1, -0⟩ : ℂ) = (-1 : ℂ) := by
        apply Complex.ext <;> simp
      rw [hc, Complex.arg_neg_one]
    rw [harg, div_eq_one_iff_eq (by positivity)]
    ring
  refine ⟨by norm_num [Vec3.length_sqr, Vec3.dot], hu, by rw [hu]; exact lt_irrefl 1⟩

/-- C8 (amended): `get_sphere_uv` returns `u = phi/(2π)` and `v = theta/π`
with `theta = acos(-p.y)` and `phi = atan2(-p.z, p.x) + π`, and for `p` on
the unit sphere the pair lies in `(0,1] × [0,1]`, with `u = 1` exactly on
the seam `p.x < 0 ∧ p.z = 0`. -/
theorem C8_uv_formulas_and_range (p : Vec3) (_hp : p.length_sqr = 1) :
    Sphere.get_sphere_uv p =
        ((atan2 (-p.z) p.x + Real.pi) / (2 * Real.pi),
          Real.arccos (-p.y) / Real.pi)
      ∧ 0 < (Sphere.get_sphere_uv p).1
      ∧ (Sphere.get_sphere_uv p).1 ≤ 1
      ∧ 0 ≤ (Sphere.get_sphere_uv p).2
      ∧ (Sphere.get_sphere_uv p).2 ≤ 1
      ∧ ((Sphere.get_sphere_uv p).1 = 1 ↔ p.x < 0 ∧ p.z = 0) := by
  obtain ⟨h1, h2⟩ := Complex.arg_mem_Ioc ⟨p.x, -p.z⟩
  have hπ := Real.pi_pos
  have h2π : (2 : ℝ) * Real.pi ≠ 0 := by positivity
  refine ⟨rfl, ?_, ?_, ?_, ?_, ?_⟩
  · show 0 < (atan2 (-p.z) p.x + Real.pi) / (2 * Real.pi)
    refine div_pos ?_ (by positivity)
    unfold atan2
    linarith
  · show (atan2 (-p.z) p.x + Real.pi) / (2 * Real.pi) ≤ 1
    rw [div_le_one (by positivity)]
    unfold atan2
    linarith
  · exact div_nonneg (Real.arccos_nonneg _) (le_of_lt hπ)
  · show Real.arccos (-p.y) / Real.pi ≤ 1
    rw [div_le_one hπ]
    exact Real.arccos_le_pi _
  · show (atan2 (-p.z) p.x + Real.pi) / (2 * Real.pi) = 1 ↔ p.x < 0 ∧ p.z = 0
    rw [div_eq_one_iff_eq h2π]
    constructor
    · intro h
      have harg : atan2 (-p.z) p.x = Real.pi := by linarith
      unfold atan2 at harg
      have hre := Complex.arg_eq_pi_iff.mp harg
      refine ⟨hre.1, ?_⟩
      have him := hre.2
      simpa using him
    · rintro ⟨hx, hz⟩
      have harg : atan2 (-p.z) p.x = Real.pi := by
        unfold atan2
        exact Complex.arg_eq_pi_iff.mpr ⟨hx, by simp [hz]⟩
      rw [harg]
      ring

/-- Witness for C8 (amended) at the on-sphere point `(1,0,0)`. -/
theorem C8_uv_formulas_and_range_witness :
    Vec3.length_sqr ⟨1, 0, 0⟩ = 1 ∧
    (Sphere.get_sphere_uv ⟨1, 0, 0⟩ =
        ((atan2 (-(⟨1, 0, 0⟩ : Vec3).z) (⟨1, 0, 0⟩ : Vec3).x + Real.pi) /
            (2 * Real.pi),
          Real.arccos (-(⟨1, 0, 0⟩ : Vec3).y) / Real.pi)
      ∧ 0 < (Sphere.get_sphere_uv ⟨1, 0, 0⟩).1
      ∧ (Sphere.get_sphere_uv ⟨1, 0, 0⟩).1 ≤ 1
      ∧ 0 ≤ (Sphere.get_sphere_uv ⟨1, 0, 0⟩).2
      ∧ (Sphere.get_sphere_uv ⟨1, 0, 0⟩).2 ≤ 1
      ∧ ((Sphere.get_sphere_uv ⟨1, 0, 0⟩).1 = 1 ↔
          (⟨1, 0, 0⟩ : Vec3).x < 0 ∧ (⟨1, 0, 0⟩ : Vec3).z = 0)) :=
  ⟨by norm_num [Vec3.length_sqr, Vec3.dot],
   C8_uv_formulas_and_range ⟨1, 0, 0⟩ (by norm_num [Vec3.length_sqr, Vec3.dot])⟩
